import Mathlib

/-!
Verification of the goinglogging logging library core
(`include/goinglogging/goinglogging.h`).

The development shallowly embeds the library:

* the process-wide configuration (`curPrefixes`, `outputEnabled`,
  `colorEnabled`) becomes an explicit state record `GlState`;
* the `Prefixer` stream output operator becomes the pure function
  `prefixerOut`, with the nondeterministic environment (localtime result,
  milliseconds, thread id) passed explicitly;
* the `Stringifier` template dispatch becomes the recursive renderer `strf`
  over an inductive value universe `Val`;
* the `l`, `l_arr` and `l_mat` emission macros become the pure functions
  `lEmit` / `arrEmit` / `matEmit` producing the byte sequence written to the
  sink (scalar values and expression texts are passed as already-rendered
  strings where the claim under consideration does not concern the
  value renderer itself).

Machine integers: the prefix mask is a C `uint32_t`; all the operations the
library performs on it (`&`, `|`, `^` of values below `2^32`) can neither
overflow nor truncate, so the mask is embedded as `Nat` with `Nat.land`,
`Nat.lor`, `Nat.lxor`.
-/

namespace Goinglogging

/-- Process-wide configuration store: current prefix mask, output-enabled
flag, color-enabled flag. -/
structure GlState where
  curPrefixes : Nat
  outputEnabled : Bool
  colorEnabled : Bool
deriving Repr, DecidableEq

/-- Value of `prefix::NONE`. -/
def pNONE : Nat := 0

/-- Value of `prefix::FILE` (`1 << 0`). -/
def pFILE : Nat := 1 <<< 0

/-- Value of `prefix::LINE` (`1 << 1`). -/
def pLINE : Nat := 1 <<< 1

/-- Value of `prefix::FUNCTION` (`1 << 2`). -/
def pFUNCTION : Nat := 1 <<< 2

/-- Value of `prefix::TIME` (`1 << 3`). -/
def pTIME : Nat := 1 <<< 3

/-- Value of `prefix::THREAD` (`1 << 4`). -/
def pTHREAD : Nat := 1 <<< 4

/-- Value of `prefix::TYPE_NAME` (`1 << 5`). -/
def pTYPE_NAME : Nat := 1 <<< 5

/-- Bitwise and of prefix settings (`operator&`). -/
def prefixAnd (lhs rhs : Nat) : Nat := lhs &&& rhs

/-- Bitwise or of prefix settings (`operator|`). -/
def prefixOr (lhs rhs : Nat) : Nat := lhs ||| rhs

/-- Bitwise xor of prefix settings (`operator^`). -/
def prefixXor (lhs rhs : Nat) : Nat := lhs ^^^ rhs

/-- Initial configuration: `curPrefixes = FILE | LINE`, output enabled,
color disabled. -/
def initialState : GlState := ⟨prefixOr pFILE pLINE, true, false⟩

/-- Embedding of `gl::get_prefixes`. -/
def get_prefixes (s : GlState) : Nat := s.curPrefixes

/-- Embedding of `gl::set_prefixes`. -/
def set_prefixes (p : Nat) (s : GlState) : GlState :=
  ⟨p, s.outputEnabled, s.colorEnabled⟩

/-- Embedding of `gl::is_output_enabled`. -/
def is_output_enabled (s : GlState) : Bool := s.outputEnabled

/-- Embedding of `gl::set_output_enabled`. -/
def set_output_enabled (e : Bool) (s : GlState) : GlState :=
  ⟨s.curPrefixes, e, s.colorEnabled⟩

/-- Embedding of `gl::is_color_enabled`. -/
def is_color_enabled (s : GlState) : Bool := s.colorEnabled

/-- Embedding of `gl::set_color_enabled`. -/
def set_color_enabled (e : Bool) (s : GlState) : GlState :=
  ⟨s.curPrefixes, s.outputEnabled, e⟩

/-- Test `(mask & flag) != prefix::NONE`, the flag test the library uses
everywhere. -/
def hasFlag (mask flag : Nat) : Bool := mask &&& flag != 0

/-- Path separator character (the non-Windows branch of the source: `'/'`). -/
def sepChar : Char := '/'

/-- Descending search loop of the FILE block: starting at index `i - 1`,
find the greatest index holding the path separator (the C++ loop
`for (size_t i = str_len - 1; i != SIZE_MAX; --i)` with `break` on match). -/
def findLastSepGo (path : List Char) : Nat → Option Nat
  | 0 => none
  | i + 1 => if path.getD i ' ' = sepChar then some i else findLastSepGo path i

/-- FILE field of the prefix: the file path after its last path separator,
or the path verbatim when it holds no separator. -/
def fileField (filePath : String) : String :=
  match findLastSepGo filePath.data filePath.data.length with
  | none => filePath
  | some i => ⟨filePath.data.drop (i + 1)⟩

/-- Zero-padding to width 3 (`std::setfill('0') << std::setw(3)` applied to a
millisecond count below 1000). -/
def pad3 (n : Nat) : String :=
  if n < 10 then "00" ++ toString n
  else if n < 100 then "0" ++ toString n
  else toString n

/-- FILE block of `operator<<(std::ostream&, const Prefixer&)`, acting on the
pair (text so far, count of prefixes written). -/
def stepFILE (mask : Nat) (filePath : String) (p : String × Nat) : String × Nat :=
  if hasFlag mask pFILE then (p.1 ++ fileField filePath, p.2 + 1) else p

/-- LINE block of th e prefixer: `"Line: "` when nothing was written yet,
`":"` otherwise, then the line number. -/
def stepLINE (mask : Nat) (fileLine : Int) (p : String × Nat) : String × Nat :=
  if hasFlag mask pLINE then
    (p.1 ++ (if p.2 = 0 then "Line: " else ":") ++ toString fileLine, p.2 + 1)
  else p

/-- FUNCTION block of the prefixer. -/
def stepFUNCTION (mask : Nat) (func : String) (p : String × Nat) : String × Nat :=
  if hasFlag mask pFUNCTION then
    (p.1 ++ (if p.2 ≠ 0 then ", " else "") ++ func ++ "()", p.2 + 1)
  else p

/-- TIME block of the prefixer. `localTime` is the result of
`std::localtime` (`none` models a null return), already rendered through
`std::put_time(local, "%H:%M:%S")`; `nowMs` the epoch milliseconds. -/
def stepTIME (mask : Nat) (localTime : Option String) (nowMs : Nat)
    (p : String × Nat) : String × Nat :=
  if hasFlag mask pTIME then
    match localTime with
    | some t => (p.1 ++ (if p.2 ≠ 0 then ", " else "") ++ t ++ "." ++ pad3 (nowMs % 1000), p.2 + 1)
    | none => p
  else p

/-- THREAD block of the prefixer; `tid` is the text the runtime prints for
`std::this_thread::get_id()`. -/
def stepTHREAD (mask : Nat) (tid : String) (p : String × Nat) : String × Nat :=
  if hasFlag mask pTHREAD then
    (p.1 ++ (if p.2 ≠ 0 then ", " else "") ++ "TID: " ++ tid, p.2 + 1)
  else p

/-- Embedding of `operator<<(std::ostream&, const Prefixer&)`: the five field
blocks in source order, then the trailing `": "` iff at least one prefix was
written. -/
def prefixerOut (mask : Nat) (filePath : String) (fileLine : Int) (func : String)
    (localTime : Option String) (nowMs : Nat) (tid : String) : String :=
  let p := stepTHREAD mask tid (stepTIME mask localTime nowMs
    (stepFUNCTION mask func (stepLINE mask fileLine (stepFILE mask filePath ("", 0)))))
  if p.2 ≠ 0 then p.1 ++ ": " else p.1

/-- Call-site context captured by the emission macros
(`__FILE__`, `__LINE__`, `__func__`). -/
structure CallCtx where
  filePath : String
  fileLine : Int
  func : String

/-- Ambient inputs the prefixer samples from the system: localtime result,
epoch milliseconds, thread-id text. -/
structure SysEnv where
  localTime : Option String
  nowMs : Nat
  tid : String

/-- Embedding of `color_start`: ANSI start code iff color is enabled. -/
def color_start (s : GlState) : String :=
  if s.colorEnabled then "\x1b[0;31m" else ""

/-- Embedding of `color_end`: ANSI reset code iff color is enabled. -/
def color_end (s : GlState) : String :=
  if s.colorEnabled then "\x1b[0m" else ""

/-- Embedding of `type_name`: the literal `type ` iff `TYPE_NAME` is in the
current mask. -/
def type_name (s : GlState) : String :=
  if hasFlag s.curPrefixes pTYPE_NAME then "type " else ""

/-- One scalar-list pair as produced by `GL_INTERNAL_LX(v)`:
`type_name << #v << " = " << stringify(v)`.  The pair holds the captured
expression text and the already-rendered value. -/
def lxPair (st : GlState) (p : String × String) : String :=
  type_name st ++ p.1 ++ " = " ++ p.2

/-- Body of a scalar-list emission: `GL_INTERNAL_L1 .. GL_INTERNAL_L16`
chain the first pair and then `", "` before every further pair. -/
def lBody (st : GlState) : List (String × String) → String
  | [] => ""
  | p :: ps => ps.foldl (fun acc q => acc ++ ", " ++ lxPair st q) (lxPair st p)

/-- Observable trace of one `l(...)` expansion: the bytes written to the
sink, and whether the `Prefixer` temporary was constructed at all. -/
structure EmitTrace where
  out : String
  prefixerConstructed : Bool
deriving Repr, DecidableEq

/-- Embedding of the `l(...)` macro.  The whole statement, including the
construction of the `Prefixer` temporary, sits inside
`if (gl::internal::outputEnabled)`. -/
def lEmitTrace (st : GlState) (ctx : CallCtx) (env : SysEnv)
    (pairs : List (String × String)) : EmitTrace :=
  if st.outputEnabled then
    ⟨color_start st
      ++ prefixerOut st.curPrefixes ctx.filePath ctx.fileLine ctx.func
          env.localTime env.nowMs env.tid
      ++ lBody st pairs ++ color_end st ++ "\n", true⟩
  else ⟨"", false⟩

/-- Bytes a scalar-list emission writes to the sink. -/
def lEmit (st : GlState) (ctx : CallCtx) (env : SysEnv)
    (pairs : List (String × String)) : String :=
  (lEmitTrace st ctx env pairs).out

/-- Body loop of `operator<<(std::ostream&, const Array<U>&)`: first element
without a comma, then `", "` before each further element. -/
def arrBody : List String → String
  | [] => ""
  | v :: vs => vs.foldl (fun acc w => acc ++ ", " ++ w) v

/-- Embedding of `l_arr`: `operator<<(std::ostream&, const Array<U>&)` runs
the whole record under `if (outputEnabled)`.  `vals` are the already-rendered
elements in index order. -/
def arrEmit (st : GlState) (ctx : CallCtx) (env : SysEnv) (name : String)
    (vals : List String) : String :=
  if st.outputEnabled then
    color_start st
      ++ prefixerOut st.curPrefixes ctx.filePath ctx.fileLine ctx.func
          env.localTime env.nowMs env.tid
      ++ type_name st ++ name ++ " = \x7b" ++ arrBody vals ++ "\x7d"
      ++ color_end st ++ "\n"
  else ""

/-- One matrix element as printed by the matrix loops: `[i,j] = v`. -/
def matEntry (i j : Nat) (v : String) : String :=
  "[" ++ toString i ++ "," ++ toString j ++ "] = " ++ v

/-- Body of `operator<<(std::ostream&, const Matrix<U>&)`: `{}` when a
dimension is zero; otherwise element `[0,0]`, the rest of row 0
(`for (j = 1; j < cols; ++j)`), then every further row in full
(`for (i = 1; i < rows; ++i) for (j = 0; j < cols; ++j)`), each further
element preceded by `", "`. -/
def matBody (vals : Nat → Nat → String) (cols rows : Nat) : String :=
  if cols = 0 ∨ rows = 0 then "\x7b\x7d"
  else
    (List.range' 1 (rows - 1)).foldl
      (fun acc i => (List.range cols).foldl
        (fun a j => a ++ ", " ++ matEntry i j (vals i j)) acc)
      ((List.range' 1 (cols - 1)).foldl
        (fun acc j => acc ++ ", " ++ ("[0," ++ toString j ++ "] = " ++ vals 0 j))
        ("[0,0] = " ++ vals 0 0))

/-- Embedding of `l_mat`: `operator<<(std::ostream&, const Matrix<U>&)`.
`vals i j` is the already-rendered element at row `i`, column `j`. -/
def matEmit (st : GlState) (ctx : CallCtx) (env : SysEnv) (name : String)
    (vals : Nat → Nat → String) (cols rows : Nat) : String :=
  if st.outputEnabled then
    color_start st
      ++ prefixerOut st.curPrefixes ctx.filePath ctx.fileLine ctx.func
          env.localTime env.nowMs env.tid
      ++ type_name st ++ name ++ ": " ++ matBody vals cols rows
      ++ color_end st ++ "\n"
  else ""

/-- Universe of values the `Stringifier` dispatch handles: the specialized
scalar renderings, the general fallback (a value with its own `<<` output),
and the container shapes.  Sequence-rendered containers (array, vector,
deque, forward_list, list, set, multiset, unordered variants) are `vseq`;
map-rendered containers (`map`, `multimap`, unordered variants) are `vmap`;
`vstack` covers `std::stack` (top at the head), `vpqueue` covers
`std::priority_queue` (top at the head), `vqueue` covers `std::queue`
(front at the head, back at the last position). -/
inductive Val where
  | vbool : Bool → Val
  | vchar : Char → Val
  | vschar : Char → Val
  | vuchar : Char → Val
  | vcstr : String → Val
  | vstr : String → Val
  | vother : String → Val
  | vseq : List Val → Val
  | vmap : List (Val × Val) → Val
  | vstack : List Val → Val
  | vqueue : List Val → Val
  | vpqueue : List Val → Val

mutual

/-- Embedding of the `Stringifier` output dispatch (`operator<<` on
`Stringifier<T>` and its specializations). -/
def strf : Val → String
  | .vbool b => if b then "true" else "false"
  | .vchar c => "\x27" ++ c.toString ++ "\x27"
  | .vschar c => "\x27" ++ c.toString ++ "\x27"
  | .vuchar c => "\x27" ++ c.toString ++ "\x27"
  | .vcstr s => "\x22" ++ s ++ "\x22"
  | .vstr s => "\x22" ++ s ++ "\x22"
  | .vother s => s
  | .vseq l => "\x7b" ++ seqFirst l ++ "\x7d"
  | .vmap l => "\x7b" ++ mapFirst l ++ "\x7d"
  | .vstack l => "\x7b" ++ stackBody l ++ "\x7d"
  | .vqueue l => "\x7b" ++ queueBody l ++ "\x7d"
  | .vpqueue l => "\x7b" ++ stackBody l ++ "\x7d"
termination_by v => sizeOf v
decreasing_by all_goals (simp_wf <;> omega)

/-- First element of `Stringifier::sequence`, printed without a comma. -/
def seqFirst : List Val → String
  | [] => ""
  | x :: xs => strf x ++ seqRest xs
termination_by l => sizeOf l
decreasing_by all_goals (simp_wf <;> omega)

/-- Loop of `Stringifier::sequence`: `", "` before each further element. -/
def seqRest : List Val → String
  | [] => ""
  | x :: xs => ", " ++ strf x ++ seqRest xs
termination_by l => sizeOf l
decreasing_by all_goals (simp_wf <;> omega)

/-- First pair of `Stringifier::map`, printed without a comma. -/
def mapFirst : List (Val × Val) → String
  | [] => ""
  | (k, v) :: ps => strf k ++ ": " ++ strf v ++ mapRest ps
termination_by l => sizeOf l
decreasing_by all_goals (simp_wf <;> omega)

/-- Loop of `Stringifier::map`: `", "` before each further pair. -/
def mapRest : List (Val × Val) → String
  | [] => ""
  | (k, v) :: ps => ", " ++ strf k ++ ": " ++ strf v ++ mapRest ps
termination_by l => sizeOf l
decreasing_by all_goals (simp_wf <;> omega)

/-- Body of `Stringifier::stack`: nothing when empty, `top` when the size is
1, `top, ...` otherwise. -/
def stackBody : List Val → String
  | [] => ""
  | [x] => strf x
  | x :: _ :: _ => strf x ++ ", ..."
termination_by l => sizeOf l
decreasing_by all_goals (simp_wf <;> omega)

/-- Body of `Stringifier::queue`: nothing / `front` / `front, back` /
`front, ..., back` according to the size. -/
def queueBody : List Val → String
  | [] => ""
  | [x] => strf x
  | [x, y] => strf x ++ ", " ++ strf y
  | x :: _ :: z :: zs => strf x ++ ", ..., " ++ backStrf z zs
termination_by l => sizeOf l
decreasing_by all_goals (simp_wf <;> omega)

/-- Rendering of `m_t.back()`: the last element of `x :: l`. -/
def backStrf (x : Val) : List Val → String
  | [] => strf x
  | y :: ys => backStrf y ys
termination_by l => sizeOf x + sizeOf l
decreasing_by all_goals (simp_wf <;> omega)

end

/-! ## Join lemma kit -/

/-- Tail of a `sep`-separated join: `sep ++ x` for each element in turn. -/
def joinRest (s : String) : List String → String
  | [] => ""
  | x :: xs => s ++ x ++ joinRest s xs

theorem foldl_sep_eq (s : String) (l : List String) (acc : String) :
    l.foldl (fun a b => a ++ s ++ b) acc = acc ++ joinRest s l := by
  induction l generalizing acc with
  | nil => simp [joinRest]
  | cons x xs ih =>
    simp only [List.foldl_cons]
    rw [ih, joinRest]
    simp [String.append_assoc]

theorem intercalate_go_eq (s : String) (l : List String) (acc : String) :
    String.intercalate.go acc s l = acc ++ joinRest s l := by
  induction l generalizing acc with
  | nil => simp [String.intercalate.go, joinRest]
  | cons x xs ih =>
    simp only [String.intercalate.go]
    rw [ih, joinRest]
    simp [String.append_assoc]

theorem intercalate_cons (s a : String) (l : List String) :
    String.intercalate s (a :: l) = a ++ joinRest s l := by
  simp [String.intercalate, intercalate_go_eq]

theorem joinRest_append (s : String) (l₁ l₂ : List String) :
    joinRest s (l₁ ++ l₂) = joinRest s l₁ ++ joinRest s l₂ := by
  induction l₁ with
  | nil => simp [joinRest]
  | cons x xs ih => simp [joinRest, ih, String.append_assoc]

/-! ## Claim theorems -/

/-- C7: `set_prefixes(m1)` followed by `get_prefixes()` returns exactly
`m1`; union is idempotent; union, intersection and symmetric difference are
each commutative; and `m ^ m = NONE`. -/
theorem claim_C7 (s : GlState) (m m1 m2 : Nat) :
    get_prefixes (set_prefixes m1 s) = m1 ∧
    prefixOr m m = m ∧
    prefixOr m1 m2 = prefixOr m2 m1 ∧
    prefixAnd m1 m2 = prefixAnd m2 m1 ∧
    prefixXor m1 m2 = prefixXor m2 m1 ∧
    prefixXor m m = pNONE :=
  ⟨rfl, Nat.or_self m, Nat.lor_comm m1 m2, Nat.land_comm m1 m2,
    Nat.xor_comm m1 m2, Nat.xor_self m⟩

/-- C1: if `output_enabled` is false at the time of emission, the scalar-list
(`l`), array (`l_arr`) and matrix (`l_mat`) emissions each write the empty
byte sequence to the sink, for every prefix mask, color setting and argument
list. -/
theorem claim_C1 (st : GlState) (ctx : CallCtx) (env : SysEnv)
    (pairs : List (String × String)) (aname mname : String)
    (vals : List String) (mvals : Nat → Nat → String) (cols rows : Nat)
    (h : st.outputEnabled = false) :
    lEmit st ctx env pairs = "" ∧
    arrEmit st ctx env aname vals = "" ∧
    matEmit st ctx env mname mvals cols rows = "" := by
  refine ⟨?_, ?_, ?_⟩ <;> simp [lEmit, lEmitTrace, arrEmit, matEmit, h]

/-- Witness for C1 at a concrete disabled state and concrete arguments. -/
theorem claim_C1_witness :
    (GlState.mk 3 false true).outputEnabled = false ∧
    (lEmit ⟨3, false, true⟩ ⟨"dir/a.cpp", 7, "main"⟩ ⟨some "10:02:13", 57, "12"⟩
        [("i", "1")] = "" ∧
      arrEmit ⟨3, false, true⟩ ⟨"dir/a.cpp", 7, "main"⟩ ⟨some "10:02:13", 57, "12"⟩
        "a" ["0", "1"] = "" ∧
      matEmit ⟨3, false, true⟩ ⟨"dir/a.cpp", 7, "main"⟩ ⟨some "10:02:13", 57, "12"⟩
        "m" (fun _ _ => "0") 2 2 = "") :=
  ⟨rfl, claim_C1 ⟨3, false, true⟩ ⟨"dir/a.cpp", 7, "main"⟩
    ⟨some "10:02:13", 57, "12"⟩ [("i", "1")] "a" "m" ["0", "1"]
    (fun _ _ => "0") 2 2 rfl⟩

/-- C9 as stated is false at a concrete input: with output disabled, the
expansion of `l(i)` does not construct the `Prefixer` decorator (the
`outputEnabled` guard encloses the construction), contradicting the claim
that the decorator is still constructed before the line is suppressed. -/
theorem claim_C9_counterexample :
    (lEmitTrace ⟨3, false, false⟩ ⟨"a.cpp", 1, "main"⟩ ⟨none, 0, "1"⟩
        [("i", "1")]).prefixerConstructed = false := rfl

/-- C9 amended: when `output_enabled` is false, a scalar-list emission does
not construct the prefix decorator — the enabled guard short-circuits before
the decorator expression is evaluated — and the emission writes nothing. -/
theorem claim_C9_amended (st : GlState) (ctx : CallCtx) (env : SysEnv)
    (pairs : List (String × String)) (h : st.outputEnabled = false) :
    lEmitTrace st ctx env pairs = ⟨"", false⟩ := by
  simp [lEmitTrace, h]

/-- Witness for the amended C9 at a concrete disabled state. -/
theorem claim_C9_amended_witness :
    (GlState.mk 63 false true).outputEnabled = false ∧
    lEmitTrace ⟨63, false, true⟩ ⟨"b/c.cpp", 10, "f"⟩ ⟨some "01:02:03", 4, "5"⟩
      [("x", "2"), ("y", "3")] = ⟨"", false⟩ :=
  ⟨rfl, claim_C9_amended ⟨63, false, true⟩ ⟨"b/c.cpp", 10, "f"⟩
    ⟨some "01:02:03", 4, "5"⟩ [("x", "2"), ("y", "3")] rfl⟩

/-! ## Stringifier lemmas -/

theorem data_squote : ("\x27" : String).data = ['\x27'] := rfl

theorem data_dquote : ("\x22" : String).data = ['\x22'] := rfl

theorem data_charToString (c : Char) : c.toString.data = [c] := rfl

theorem seqRest_eq (xs : List Val) :
    seqRest xs = joinRest (", ") (xs.map strf) := by
  induction xs with
  | nil => simp [seqRest, joinRest]
  | cons x t ih => simp [seqRest, joinRest, ih]

theorem append_braces : ("\x7b" : String) ++ "\x7d" = "\x7b\x7d" := rfl

theorem seqFirst_eq (l : List Val) :
    seqFirst l = String.intercalate (", ") (l.map strf) := by
  cases l with
  | nil => simp [seqFirst, String.intercalate]
  | cons x xs =>
    simp [seqFirst, seqRest_eq, intercalate_cons]

theorem mapRest_eq (ps : List (Val × Val)) :
    mapRest ps = joinRest (", ") (ps.map (fun p => strf p.1 ++ ": " ++ strf p.2)) := by
  induction ps with
  | nil => simp [mapRest, joinRest]
  | cons p t ih =>
    obtain ⟨k, v⟩ := p
    simp [mapRest, joinRest, ih, String.append_assoc]

theorem mapFirst_eq (ps : List (Val × Val)) :
    mapFirst ps = String.intercalate (", ")
      (ps.map (fun p => strf p.1 ++ ": " ++ strf p.2)) := by
  cases ps with
  | nil => simp [mapFirst, String.intercalate]
  | cons p t =>
    obtain ⟨k, v⟩ := p
    simp [mapFirst, mapRest_eq, intercalate_cons, String.append_assoc]

theorem backStrf_append (l : List Val) (x y : Val) :
    backStrf x (l ++ [y]) = strf y := by
  induction l generalizing x with
  | nil => simp [backStrf]
  | cons a t ih => simpa [backStrf] using ih a

/-- C3: every sequence-rendered and set-rendered container prints as
`{` ++ join of the recursively formatted elements in iteration order ++ `}`;
maps print analogously with `k: v` pairs, keys and values recursively
formatted by the same dispatch; every empty container prints exactly `{}`. -/
theorem claim_C3 (l : List Val) (ps : List (Val × Val)) :
    strf (.vseq l) = "\x7b" ++ String.intercalate (", ") (l.map strf) ++ "\x7d" ∧
    strf (.vmap ps) = "\x7b" ++ String.intercalate (", ")
      (ps.map (fun p => strf p.1 ++ ": " ++ strf p.2)) ++ "\x7d" ∧
    strf (.vseq []) = "\x7b\x7d" ∧ strf (.vmap []) = "\x7b\x7d" ∧
    strf (.vstack []) = "\x7b\x7d" ∧ strf (.vqueue []) = "\x7b\x7d" ∧
    strf (.vpqueue []) = "\x7b\x7d" := by
  refine ⟨?_, ?_, ?_, ?_, ?_, ?_, ?_⟩
  · simp [strf, seqFirst_eq]
  · simp [strf, mapFirst_eq]
  all_goals simp [strf, seqFirst, mapFirst, stackBody, queueBody, append_braces]

/-- C5: stacks and priority queues render `{}` / `{top}` / `{top, ...}` by
size, queues render `{}` / `{front}` / `{front, back}` /
`{front, ..., back}` by size, and elements other than top, front and back
never appear (the rendering does not depend on them). -/
theorem claim_C5 (x y : Val) (rest ms : List Val)
    (hr : rest ≠ []) (hm : ms ≠ []) :
    strf (.vstack []) = "\x7b\x7d" ∧
    strf (.vpqueue []) = "\x7b\x7d" ∧
    strf (.vqueue []) = "\x7b\x7d" ∧
    strf (.vstack [x]) = "\x7b" ++ strf x ++ "\x7d" ∧
    strf (.vpqueue [x]) = "\x7b" ++ strf x ++ "\x7d" ∧
    strf (.vstack (x :: rest)) = "\x7b" ++ strf x ++ ", ..." ++ "\x7d" ∧
    strf (.vpqueue (x :: rest)) = "\x7b" ++ strf x ++ ", ..." ++ "\x7d" ∧
    strf (.vqueue [x]) = "\x7b" ++ strf x ++ "\x7d" ∧
    strf (.vqueue [x, y]) = "\x7b" ++ strf x ++ ", " ++ strf y ++ "\x7d" ∧
    strf (.vqueue (x :: ms ++ [y])) =
      "\x7b" ++ strf x ++ ", ..., " ++ strf y ++ "\x7d" := by
  obtain ⟨r, rt, rfl⟩ : ∃ r rt, rest = r :: rt := by
    cases rest with
    | nil => exact absurd rfl hr
    | cons r rt => exact ⟨r, rt, rfl⟩
  obtain ⟨m, mt, rfl⟩ : ∃ m mt, ms = m :: mt := by
    cases ms with
    | nil => exact absurd rfl hm
    | cons m mt => exact ⟨m, mt, rfl⟩
  refine ⟨?_, ?_, ?_, ?_, ?_, ?_, ?_, ?_, ?_, ?_⟩ <;>
    cases mt <;>
    simp [strf, stackBody, queueBody, backStrf, backStrf_append,
      append_braces, String.append_assoc]

/-- C10: the formatter escapes nothing.  Character-like values (plain,
signed, unsigned) print as exactly the three characters quote-glyph-quote,
even when the glyph is itself a single quote; C strings and owned strings
print as a double quote, the bytes verbatim, and a double quote, so quotes,
braces and commas inside the text appear unescaped. -/
theorem claim_C10 (c : Char) (s : String) :
    (strf (.vchar c)).data = ['\x27', c, '\x27'] ∧
    (strf (.vschar c)).data = ['\x27', c, '\x27'] ∧
    (strf (.vuchar c)).data = ['\x27', c, '\x27'] ∧
    (strf (.vcstr s)).data = '\x22' :: (s.data ++ ['\x22']) ∧
    (strf (.vstr s)).data = '\x22' :: (s.data ++ ['\x22']) := by
  refine ⟨?_, ?_, ?_, ?_, ?_⟩ <;>
    simp [strf, data_squote, data_dquote, data_charToString]

/-! ## Scalar-list body lemmas -/

theorem lBody_cons (st : GlState) (p : String × String)
    (ps : List (String × String)) :
    lBody st (p :: ps) = String.intercalate (", ") ((p :: ps).map (lxPair st)) := by
  show ps.foldl (fun acc q => acc ++ ", " ++ lxPair st q) (lxPair st p) = _
  rw [List.map_cons, intercalate_cons, ← foldl_sep_eq, ← List.foldl_map]

/-- C4: with output enabled and arity `1 ≤ k ≤ 16`, the scalar-list record
is the color start, the prefix, then the `k` pairs in declaration order —
each the literal `type ` iff `TYPE_NAME` is in the mask, the expression
text, ` = `, and the formatted value — joined by the top-level separator
`", "` (hence `k − 1` separators), then the color end and the newline. -/
theorem claim_C4 (st : GlState) (ctx : CallCtx) (env : SysEnv)
    (pairs : List (String × String)) (h1 : 1 ≤ pairs.length)
    (h2 : pairs.length ≤ 16) (he : st.outputEnabled = true) :
    lEmit st ctx env pairs =
      color_start st
        ++ prefixerOut st.curPrefixes ctx.filePath ctx.fileLine ctx.func
            env.localTime env.nowMs env.tid
        ++ String.intercalate (", ")
            (pairs.map (fun q =>
              (if hasFlag st.curPrefixes pTYPE_NAME then "type " else "")
                ++ q.1 ++ " = " ++ q.2))
        ++ color_end st ++ "\n" := by
  cases pairs with
  | nil => simp at h1
  | cons p ps =>
    have hfun : lxPair st = fun q : String × String =>
        (if hasFlag st.curPrefixes pTYPE_NAME then "type " else "")
          ++ q.1 ++ " = " ++ q.2 := by
      funext q
      simp [lxPair, type_name]
    simp only [lEmit, lEmitTrace, he, if_true, lBody_cons, hfun,
      String.append_assoc]

/-- Witness for C4 at arity 2, `TYPE_NAME` enabled. -/
theorem claim_C4_witness :
    1 ≤ ([(("i" : String), ("1" : String)), ("j", "2")]).length ∧
    ([(("i" : String), ("1" : String)), ("j", "2")]).length ≤ 16 ∧
    (GlState.mk 32 true false).outputEnabled = true ∧
    lEmit ⟨32, true, false⟩ ⟨"a.cpp", 4, "main"⟩ ⟨some "10:02:13", 57, "12"⟩
        [("i", "1"), ("j", "2")] =
      color_start ⟨32, true, false⟩
        ++ prefixerOut (GlState.mk 32 true false).curPrefixes
            (CallCtx.mk "a.cpp" 4 "main").filePath
            (CallCtx.mk "a.cpp" 4 "main").fileLine
            (CallCtx.mk "a.cpp" 4 "main").func
            (SysEnv.mk (some "10:02:13") 57 "12").localTime
            (SysEnv.mk (some "10:02:13") 57 "12").nowMs
            (SysEnv.mk (some "10:02:13") 57 "12").tid
        ++ String.intercalate (", ")
            ([(("i" : String), ("1" : String)), ("j", "2")].map (fun q =>
              (if hasFlag (GlState.mk 32 true false).curPrefixes pTYPE_NAME
                then "type " else "")
                ++ q.1 ++ " = " ++ q.2))
        ++ color_end ⟨32, true, false⟩ ++ "\n" :=
  ⟨by decide, by decide, rfl,
    claim_C4 ⟨32, true, false⟩ ⟨"a.cpp", 4, "main"⟩ ⟨some "10:02:13", 57, "12"⟩
      [("i", "1"), ("j", "2")] (by decide) (by decide) rfl⟩

/-! ## Matrix body lemmas -/

theorem fold_entries_eq {α : Type} (vs : α → String) (l : List α) (acc : String) :
    l.foldl (fun a x => a ++ ", " ++ vs x) acc = acc ++ joinRest (", ") (l.map vs) := by
  rw [← List.foldl_map vs (fun a b => a ++ ", " ++ b) l acc]
  exact foldl_sep_eq (", ") (l.map vs) acc

theorem mat_outer_fold_eq (vals : Nat → Nat → String) (cols : Nat)
    (l : List Nat) (acc : String) :
    l.foldl (fun acc i => (List.range cols).foldl
        (fun a j => a ++ ", " ++ matEntry i j (vals i j)) acc) acc
      = acc ++ joinRest (", ")
          ((l.map (fun i => (List.range cols).map
            (fun j => matEntry i j (vals i j)))).flatten) := by
  induction l generalizing acc with
  | nil => simp [joinRest]
  | cons i t ih =>
    simp only [List.foldl_cons, List.map_cons, List.flatten_cons]
    rw [fold_entries_eq (fun j => matEntry i j (vals i j)) (List.range cols) acc,
      ih, joinRest_append, String.append_assoc]

theorem matBody_eq (vals : Nat → Nat → String) (cols rows : Nat)
    (hc : cols ≠ 0) (hr : rows ≠ 0) :
    matBody vals cols rows = String.intercalate (", ")
      (((List.range rows).map (fun i => (List.range cols).map
          (fun j => matEntry i j (vals i j)))).flatten) := by
  cases cols with
  | zero => exact absurd rfl hc
  | succ c =>
  cases rows with
  | zero => exact absurd rfl hr
  | succ r =>
  have hrange : ∀ n : Nat, List.range (n + 1) = 0 :: List.range' 1 n := by
    intro n
    simp [List.range_eq_range', List.range'_succ]
  rw [matBody, if_neg (by simp)]
  rw [show (fun (acc : String) (j : Nat) =>
        acc ++ ", " ++ ("[0," ++ toString j ++ "] = " ++ vals 0 j))
      = fun (acc : String) (j : Nat) =>
        acc ++ ", " ++ matEntry 0 j (vals 0 j) from rfl]
  rw [show ("[0,0] = " ++ vals 0 0) = matEntry 0 0 (vals 0 0) from rfl]
  rw [Nat.add_sub_cancel, Nat.add_sub_cancel]
  rw [fold_entries_eq (fun j => matEntry 0 j (vals 0 j)) (List.range' 1 c)
    (matEntry 0 0 (vals 0 0))]
  rw [mat_outer_fold_eq]
  rw [hrange r, List.map_cons, List.flatten_cons, hrange c, List.map_cons,
    List.cons_append, intercalate_cons, joinRest_append]
  simp [String.append_assoc]

/-- C6: with output enabled, a matrix record is the prefix, the optional
`type `, the name and `: `, then `{}` when a dimension is zero, and
otherwise all `rows × columns` entries in row-major order as `[i,j] = v`
joined by `", "` with no extra separator at row transitions; in particular
the 2x2 matrix `{{11, 12}, {21, 22}}` named `m` under mask NONE emits
exactly `m: [0,0] = 11, [0,1] = 12, [1,0] = 21, [1,1] = 22\n`. -/
theorem claim_C6 (st : GlState) (ctx : CallCtx) (env : SysEnv) (name : String)
    (vals : Nat → Nat → String) (cols rows cols0 rows0 : Nat)
    (he : st.outputEnabled = true) (hc : cols ≠ 0) (hr : rows ≠ 0) :
    matEmit st ctx env name vals 0 rows0 =
      color_start st
        ++ prefixerOut st.curPrefixes ctx.filePath ctx.fileLine ctx.func
            env.localTime env.nowMs env.tid
        ++ type_name st ++ name ++ ": " ++ "\x7b\x7d"
        ++ color_end st ++ "\n" ∧
    matEmit st ctx env name vals cols0 0 =
      color_start st
        ++ prefixerOut st.curPrefixes ctx.filePath ctx.fileLine ctx.func
            env.localTime env.nowMs env.tid
        ++ type_name st ++ name ++ ": " ++ "\x7b\x7d"
        ++ color_end st ++ "\n" ∧
    matEmit st ctx env name vals cols rows =
      color_start st
        ++ prefixerOut st.curPrefixes ctx.filePath ctx.fileLine ctx.func
            env.localTime env.nowMs env.tid
        ++ type_name st ++ name ++ ": "
        ++ String.intercalate (", ")
            (((List.range rows).map (fun i => (List.range cols).map
              (fun j => matEntry i j (vals i j)))).flatten)
        ++ color_end st ++ "\n" ∧
    matEmit ⟨0, true, false⟩ ⟨"a.cpp", 1, "f"⟩ ⟨none, 0, "1"⟩ "m"
        (fun i j => toString (i * 10 + j + 11)) 2 2 =
      "m: [0,0] = 11, [0,1] = 12, [1,0] = 21, [1,1] = 22\n" := by
  refine ⟨?_, ?_, ?_, ?_⟩
  · simp [matEmit, matBody, he, String.append_assoc]
  · simp [matEmit, matBody, he, String.append_assoc]
  · rw [matEmit, if_pos he, matBody_eq vals cols rows hc hr]
  · rfl

/-- Witness for C6 at a concrete 2x2 matrix, mask NONE, color off. -/
theorem claim_C6_witness :
    (GlState.mk 0 true false).outputEnabled = true ∧ (2 : Nat) ≠ 0 ∧
    matEmit ⟨0, true, false⟩ ⟨"a.cpp", 1, "f"⟩ ⟨none, 0, "1"⟩ "m"
        (fun i j => toString (i * 10 + j + 11)) 2 2 =
      "m: [0,0] = 11, [0,1] = 12, [1,0] = 21, [1,1] = 22\n" :=
  ⟨rfl, by decide,
    (claim_C6 ⟨0, true, false⟩ ⟨"a.cpp", 1, "f"⟩ ⟨none, 0, "1"⟩ "m"
      (fun i j => toString (i * 10 + j + 11)) 2 2 3 3 rfl
      (by decide) (by decide)).2.2.2⟩

/-! ## File-basename lemmas -/

theorem getD_of_lt (l : List Char) (j : Nat) (h : j < l.length) :
    l.getD j ' ' = l[j] := by
  simp [List.getD_eq_getElem?_getD, List.getElem?_eq_getElem h]

theorem findLastSepGo_none_spec (path : List Char) :
    ∀ n, findLastSepGo path n = none → ∀ j, j < n → path.getD j ' ' ≠ sepChar := by
  intro n
  induction n with
  | zero =>
    intro _ j hj
    exact absurd hj (Nat.not_lt_zero j)
  | succ k ih =>
    intro h j hj
    rw [findLastSepGo] at h
    by_cases hc : path.getD k ' ' = sepChar
    · rw [if_pos hc] at h
      exact Option.noConfusion h
    · rw [if_neg hc] at h
      rcases Nat.lt_succ_iff_lt_or_eq.mp hj with h1 | rfl
      · exact ih h j h1
      · exact hc

theorem findLastSepGo_some_spec (path : List Char) :
    ∀ n i, findLastSepGo path n = some i →
      i < n ∧ path.getD i ' ' = sepChar ∧
        ∀ j, i < j → j < n → path.getD j ' ' ≠ sepChar := by
  intro n
  induction n with
  | zero =>
    intro i h
    simp [findLastSepGo] at h
  | succ k ih =>
    intro i h
    rw [findLastSepGo] at h
    by_cases hc : path.getD k ' ' = sepChar
    · rw [if_pos hc] at h
      obtain rfl : k = i := Option.some.inj h
      refine ⟨Nat.lt_succ_self k, hc, ?_⟩
      intro j hj1 hj2
      omega
    · rw [if_neg hc] at h
      obtain ⟨h1, h2, h3⟩ := ih i h
      refine ⟨Nat.lt_succ_of_lt h1, h2, ?_⟩
      intro j hj1 hj2
      rcases Nat.lt_succ_iff_lt_or_eq.mp hj2 with h4 | rfl
      · exact h3 j hj1 h4
      · exact hc

theorem sep_not_mem_fileField (fp : String) : sepChar ∉ (fileField fp).data := by
  unfold fileField
  split
  next hgo =>
    intro hmem
    obtain ⟨j, hj, hje⟩ := List.mem_iff_getElem.mp hmem
    exact findLastSepGo_none_spec fp.data _ hgo j hj
      (by rw [getD_of_lt _ _ hj, hje])
  next i hgo =>
    intro hmem
    obtain ⟨h1, h2, h3⟩ := findLastSepGo_some_spec fp.data _ i hgo
    obtain ⟨k, hk, hke⟩ := List.mem_iff_getElem.mp hmem
    have hk2 : k < (fp.data.drop (i + 1)).length := hk
    have hk3 : i + 1 + k < fp.data.length := by
      rw [List.length_drop] at hk2
      omega
    refine h3 (i + 1 + k) (by omega) hk3 ?_
    rw [getD_of_lt _ _ hk3]
    rw [List.getElem_drop] at hke
    exact hke

theorem fileField_of_no_sep (fp : String) (h : sepChar ∉ fp.data) :
    fileField fp = fp := by
  unfold fileField
  split
  next => rfl
  next i hgo =>
    obtain ⟨h1, h2, _⟩ := findLastSepGo_some_spec fp.data _ i hgo
    rw [getD_of_lt _ _ h1] at h2
    exact absurd (h2 ▸ List.getElem_mem h1) h

theorem fileField_suffix (fp : String) :
    ∃ pre : List Char, fp.data = pre ++ (fileField fp).data ∧
      (pre = [] ∨ pre.getLast? = some sepChar) := by
  unfold fileField
  split
  next => exact ⟨[], rfl, Or.inl rfl⟩
  next i hgo =>
    obtain ⟨h1, h2, _⟩ := findLastSepGo_some_spec fp.data _ i hgo
    refine ⟨fp.data.take (i + 1), (List.take_append_drop _ _).symm, Or.inr ?_⟩
    rw [getD_of_lt _ _ h1] at h2
    have hlen : (fp.data.take (i + 1)).length = i + 1 := by
      rw [List.length_take]
      omega
    rw [List.getLast?_eq_getElem?, hlen, Nat.add_sub_cancel,
      List.getElem?_take_of_succ, List.getElem?_eq_getElem h1, h2]

/-! ## Prefix-mask bit lemmas -/

theorem hasFlag_pow (m k : Nat) : hasFlag m (2 ^ k) = m.testBit k := by
  simp only [hasFlag, Nat.and_two_pow]
  cases h : m.testBit k <;> simp [h, Nat.pow_eq_zero]

theorem pFILE_eq : pFILE = 2 ^ 0 := by decide

theorem pLINE_eq : pLINE = 2 ^ 1 := by decide

theorem pFUNCTION_eq : pFUNCTION = 2 ^ 2 := by decide

theorem pTIME_eq : pTIME = 2 ^ 3 := by decide

theorem pTHREAD_eq : pTHREAD = 2 ^ 4 := by decide

theorem hasFlag_xor_pow_of_ne (m : Nat) {j k : Nat} (h : j ≠ k) :
    hasFlag (m ^^^ 2 ^ j) (2 ^ k) = hasFlag m (2 ^ k) := by
  rw [hasFlag_pow, hasFlag_pow, Nat.testBit_xor, Nat.testBit_two_pow]
  simp [h]

theorem hasFlag_xor_pow_self (m k : Nat) (h : hasFlag m (2 ^ k) = true) :
    hasFlag (m ^^^ 2 ^ k) (2 ^ k) = false := by
  rw [hasFlag_pow] at h
  rw [hasFlag_pow, Nat.testBit_xor, Nat.testBit_two_pow]
  simp [h]

theorem stepFILE_congr {m m' : Nat} (h : hasFlag m' pFILE = hasFlag m pFILE)
    (fp : String) (p : String × Nat) : stepFILE m' fp p = stepFILE m fp p := by
  unfold stepFILE
  rw [h]

theorem stepLINE_congr {m m' : Nat} (h : hasFlag m' pLINE = hasFlag m pLINE)
    (ln : Int) (p : String × Nat) : stepLINE m' ln p = stepLINE m ln p := by
  unfold stepLINE
  rw [h]

theorem stepFUNCTION_congr {m m' : Nat}
    (h : hasFlag m' pFUNCTION = hasFlag m pFUNCTION)
    (fn : String) (p : String × Nat) : stepFUNCTION m' fn p = stepFUNCTION m fn p := by
  unfold stepFUNCTION
  rw [h]

theorem stepTHREAD_congr {m m' : Nat} (h : hasFlag m' pTHREAD = hasFlag m pTHREAD)
    (tid : String) (p : String × Nat) : stepTHREAD m' tid p = stepTHREAD m tid p := by
  unfold stepTHREAD
  rw [h]

theorem stepTIME_skip_none (m : Nat) (ms : Nat) (p : String × Nat) :
    stepTIME m none ms p = p := by
  unfold stepTIME
  split <;> rfl

theorem stepTIME_skip_flag (m : Nat) (lt : Option String) (ms : Nat)
    (p : String × Nat) (h : hasFlag m pTIME = false) :
    stepTIME m lt ms p = p := by
  simp [stepTIME, h]

/-- C8: if the epoch-to-local-time conversion fails, the TIME field is
omitted from that record only and does not count toward the prior-field
tally: for any mask containing TIME, the record renders exactly as it would
with TIME absent from the mask and the conversion succeeding — no `", "`
separator is contributed, later fields (THREAD) keep their separators, the
trailing `": "` is not caused by TIME alone, and all other enabled fields
render unchanged. -/
theorem claim_C8 (mask : Nat) (fp : String) (ln : Int) (fn t tid : String)
    (ms : Nat) (h : hasFlag mask pTIME = true) :
    prefixerOut mask fp ln fn none ms tid =
      prefixerOut (mask ^^^ pTIME) fp ln fn (some t) ms tid := by
  have hF : hasFlag (mask ^^^ pTIME) pFILE = hasFlag mask pFILE := by
    rw [pFILE_eq, pTIME_eq]
    exact hasFlag_xor_pow_of_ne mask (by decide)
  have hL : hasFlag (mask ^^^ pTIME) pLINE = hasFlag mask pLINE := by
    rw [pLINE_eq, pTIME_eq]
    exact hasFlag_xor_pow_of_ne mask (by decide)
  have hFn : hasFlag (mask ^^^ pTIME) pFUNCTION = hasFlag mask pFUNCTION := by
    rw [pFUNCTION_eq, pTIME_eq]
    exact hasFlag_xor_pow_of_ne mask (by decide)
  have hT : hasFlag (mask ^^^ pTIME) pTHREAD = hasFlag mask pTHREAD := by
    rw [pTHREAD_eq, pTIME_eq]
    exact hasFlag_xor_pow_of_ne mask (by decide)
  have hTm : hasFlag (mask ^^^ pTIME) pTIME = false := by
    rw [pTIME_eq]
    exact hasFlag_xor_pow_self mask 3 (by rw [← pTIME_eq]; exact h)
  simp only [prefixerOut]
  rw [stepTIME_skip_none, stepTIME_skip_flag _ _ _ _ hTm,
    stepFILE_congr hF, stepLINE_congr hL, stepFUNCTION_congr hFn,
    stepTHREAD_congr hT]

/-- Witness for C8 at mask `TIME | THREAD`. -/
theorem claim_C8_witness :
    hasFlag 24 pTIME = true ∧
    prefixerOut 24 "a.cpp" 7 "f" none 5 "7" =
      prefixerOut (24 ^^^ pTIME) "a.cpp" 7 "f" (some "10:02:13") 5 "7" :=
  ⟨by decide, claim_C8 24 "a.cpp" 7 "f" "10:02:13" "7" 5 (by decide)⟩

/-! ## C2 spec-side rendering -/

theorem intercalate_nil (s : String) : String.intercalate s [] = "" := rfl

/-- Modelled from the claim text: the FUNCTION, TIME and THREAD fields, in
order, as a list of rendered fields. -/
def specFieldTail (mask : Nat) (fn t : String) (ms : Nat) (tid : String) :
    List String :=
  (if hasFlag mask pFUNCTION then [fn ++ "()"] else [])
    ++ (if hasFlag mask pTIME then [t ++ "." ++ pad3 (ms % 1000)] else [])
    ++ (if hasFlag mask pTHREAD then ["TID: " ++ tid] else [])

/-- Modelled from the claim text: the field list of a record, in the fixed
order FILE, LINE, FUNCTION, TIME, THREAD.  The LINE field carries its own
prefix — `":"` when FILE was emitted, the literal `"Line: "` otherwise — so
FILE and LINE fuse into one part with no `", "` between them. -/
def specParts (mask : Nat) (fp : String) (ln : Int) (fn t : String)
    (ms : Nat) (tid : String) : List String :=
  (if hasFlag mask pFILE || hasFlag mask pLINE then
      [(if hasFlag mask pFILE then fileField fp else "")
        ++ (if hasFlag mask pLINE then
            (if hasFlag mask pFILE then ":" else "Line: ") ++ toString ln
          else "")]
    else [])
    ++ specFieldTail mask fn t ms tid

/-- Modelled from the claim text: the declarative rendering — exactly the
fields whose flags are in the mask, in the fixed order, joined by `", "`,
ending in `": "` iff at least one field was produced. -/
def specPrefixOut (mask : Nat) (fp : String) (ln : Int) (fn t : String)
    (ms : Nat) (tid : String) : String :=
  String.intercalate (", ") (specParts mask fp ln fn t ms tid)
    ++ (if specParts mask fp ln fn t ms tid = [] then "" else ": ")

theorem pTYPE_NAME_eq : pTYPE_NAME = 2 ^ 5 := by decide

theorem hasFlag_or_pow_of_ne (m : Nat) {j k : Nat} (h : j ≠ k) :
    hasFlag (m ||| 2 ^ j) (2 ^ k) = hasFlag m (2 ^ k) := by
  rw [hasFlag_pow, hasFlag_pow, Nat.testBit_or, Nat.testBit_two_pow]
  simp [h]

theorem stepTIME_congr {m m' : Nat} (h : hasFlag m' pTIME = hasFlag m pTIME)
    (lt : Option String) (ms : Nat) (p : String × Nat) :
    stepTIME m' lt ms p = stepTIME m lt ms p := by
  unfold stepTIME
  rw [h]

/-- C2: for every mask and call-site context the rendered prefix is exactly
the declarative form: the fields whose flags are in the mask (TYPE_NAME
contributing nothing), in the fixed order FILE, LINE, FUNCTION, TIME,
THREAD; the FILE field is the substring of the path after the last path
separator (the path verbatim if it has no separator) and itself contains no
separator; the LINE field is prefixed by `":"` iff FILE was emitted and by
`"Line: "` otherwise; the prefix ends in `": "` iff at least one field was
produced. -/
theorem claim_C2 (mask : Nat) (fp fp2 : String) (ln : Int) (fn t tid : String)
    (ms : Nat) (hns : sepChar ∉ fp2.data) :
    prefixerOut mask fp ln fn (some t) ms tid =
      specPrefixOut mask fp ln fn t ms tid ∧
    prefixerOut (mask ||| pTYPE_NAME) fp ln fn (some t) ms tid =
      prefixerOut mask fp ln fn (some t) ms tid ∧
    sepChar ∉ (fileField fp).data ∧
    fileField fp2 = fp2 ∧
    (∃ pre : List Char, fp.data = pre ++ (fileField fp).data ∧
      (pre = [] ∨ pre.getLast? = some sepChar)) := by
  refine ⟨?_, ?_, sep_not_mem_fileField fp, fileField_of_no_sep fp2 hns,
    fileField_suffix fp⟩
  · cases h0 : hasFlag mask pFILE <;> cases h1 : hasFlag mask pLINE <;>
      cases h2 : hasFlag mask pFUNCTION <;> cases h3 : hasFlag mask pTIME <;>
      cases h4 : hasFlag mask pTHREAD <;>
      simp [prefixerOut, specPrefixOut, specParts, specFieldTail, stepFILE,
        stepLINE, stepFUNCTION, stepTIME, stepTHREAD, h0, h1, h2, h3, h4,
        intercalate_cons, intercalate_nil, joinRest, String.append_assoc]
    all_goals apply String.ext
    all_goals rfl
  · have hF : hasFlag (mask ||| pTYPE_NAME) pFILE = hasFlag mask pFILE := by
      rw [pFILE_eq, pTYPE_NAME_eq]
      exact hasFlag_or_pow_of_ne mask (by decide)
    have hL : hasFlag (mask ||| pTYPE_NAME) pLINE = hasFlag mask pLINE := by
      rw [pLINE_eq, pTYPE_NAME_eq]
      exact hasFlag_or_pow_of_ne mask (by decide)
    have hFn : hasFlag (mask ||| pTYPE_NAME) pFUNCTION = hasFlag mask pFUNCTION := by
      rw [pFUNCTION_eq, pTYPE_NAME_eq]
      exact hasFlag_or_pow_of_ne mask (by decide)
    have hTm : hasFlag (mask ||| pTYPE_NAME) pTIME = hasFlag mask pTIME := by
      rw [pTIME_eq, pTYPE_NAME_eq]
      exact hasFlag_or_pow_of_ne mask (by decide)
    have hT : hasFlag (mask ||| pTYPE_NAME) pTHREAD = hasFlag mask pTHREAD := by
      rw [pTHREAD_eq, pTYPE_NAME_eq]
      exact hasFlag_or_pow_of_ne mask (by decide)
    simp only [prefixerOut]
    rw [stepFILE_congr hF, stepLINE_congr hL, stepFUNCTION_congr hFn,
      stepTIME_congr hTm, stepTHREAD_congr hT]

/-- Witness for C2 at mask `FILE|LINE|FUNCTION|TIME|THREAD` and a path with
two separators. -/
theorem claim_C2_witness :
    sepChar ∉ ("main.ext" : String).data ∧
    (prefixerOut 31 "dir/sub/main.ext" 68 "calc" (some "10:02:13") 1057 "12" =
        specPrefixOut 31 "dir/sub/main.ext" 68 "calc" "10:02:13" 1057 "12" ∧
      prefixerOut (31 ||| pTYPE_NAME) "dir/sub/main.ext" 68 "calc"
          (some "10:02:13") 1057 "12" =
        prefixerOut 31 "dir/sub/main.ext" 68 "calc" (some "10:02:13") 1057 "12" ∧
      sepChar ∉ (fileField "dir/sub/main.ext").data ∧
      fileField "main.ext" = "main.ext" ∧
      (∃ pre : List Char, ("dir/sub/main.ext" : String).data =
          pre ++ (fileField "dir/sub/main.ext").data ∧
        (pre = [] ∨ pre.getLast? = some sepChar))) :=
  ⟨by decide, claim_C2 31 "dir/sub/main.ext" "main.ext" 68 "calc" "10:02:13"
    "12" 1057 (by decide)⟩

/-- Witness for C5 with boolean elements: stack/pqueue of sizes 0/1/2,
queue of sizes 0/1/2/3. -/
theorem claim_C5_witness :
    ([Val.vbool false] : List Val) ≠ [] ∧
    ([Val.vbool true] : List Val) ≠ [] ∧
    (strf (Val.vstack []) = "\x7b\x7d" ∧
      strf (Val.vpqueue []) = "\x7b\x7d" ∧
      strf (Val.vqueue []) = "\x7b\x7d" ∧
      strf (Val.vstack [Val.vbool true]) =
        "\x7b" ++ strf (Val.vbool true) ++ "\x7d" ∧
      strf (Val.vpqueue [Val.vbool true]) =
        "\x7b" ++ strf (Val.vbool true) ++ "\x7d" ∧
      strf (Val.vstack (Val.vbool true :: [Val.vbool false])) =
        "\x7b" ++ strf (Val.vbool true) ++ ", ..." ++ "\x7d" ∧
      strf (Val.vpqueue (Val.vbool true :: [Val.vbool false])) =
        "\x7b" ++ strf (Val.vbool true) ++ ", ..." ++ "\x7d" ∧
      strf (Val.vqueue [Val.vbool true]) =
        "\x7b" ++ strf (Val.vbool true) ++ "\x7d" ∧
      strf (Val.vqueue [Val.vbool true, Val.vbool false]) =
        "\x7b" ++ strf (Val.vbool true) ++ ", " ++ strf (Val.vbool false)
          ++ "\x7d" ∧
      strf (Val.vqueue (Val.vbool true :: [Val.vbool true] ++ [Val.vbool false])) =
        "\x7b" ++ strf (Val.vbool true) ++ ", ..., " ++ strf (Val.vbool false)
          ++ "\x7d") :=
  ⟨by simp, by simp,
    claim_C5 (Val.vbool true) (Val.vbool false) [Val.vbool false]
      [Val.vbool true] (by simp) (by simp)⟩

end Goinglogging
